import Mathlib

/-!
Verification of the geospatial proximity-and-aggregation engine of the
portfolio dashboard (src/docs/js/gis_analysis.js and src/docs/js/app.js).

Numbers are modelled as rationals; the JavaScript value `Infinity` used as
the unbounded-distance sentinel is modelled by a dedicated constructor.
Third-party geometry primitives (turf.buffer, turf.booleanIntersects,
turf.length, turf.bboxClip) are modelled as an abstract geometry oracle:
the code under verification only composes their results.
-/

namespace Portfolio

/-! ### Readiness scorer (gis_analysis.js, `readinessScore`) -/

/-- A distance value as used by the dashboard: either the JavaScript
`Infinity` sentinel (no candidate lines at all) or a finite number. -/
inductive Dist where
  | inf : Dist
  | fin : ℚ → Dist
deriving DecidableEq

/-- `d => (d===Infinity) ? 0 : (1 - Math.min(d/0.6, 1))` from `readinessScore`. -/
def toIdx : Dist → ℚ
  | .inf => 0
  | .fin d => 1 - min (d / 0.6) 1

/-- Embedding of `readinessScore(wDistKm, sDistKm, lenKm)` from
gis_analysis.js lines 200-212. -/
def readinessScore (wDistKm sDistKm : Dist) (lenKm : ℚ) : ℚ :=
  let wIdx := toIdx wDistKm
  let sIdx := toIdx sDistKm
  let dIdx := min (lenKm / 1.5) 1
  let weights : ℚ × ℚ × ℚ :=
    if wIdx = 0 ∧ sIdx = 0 then (0, 0, 1)
    else if wIdx = 0 then (0, 0.6, 0.4)
    else if sIdx = 0 then (0.6, 0, 0.4)
    else (0.4, 0.4, 0.2)
  weights.1 * wIdx + weights.2.1 * sIdx + weights.2.2 * dIdx

/-- The reference algorithm exactly as the specification words it:
proximity index `idx(d) = 0` if `d = ∞` else `1 - min(d/0.6, 1)`,
density index `min(lenKm/1.5, 1)`, weight triple selected by which
proximity indices are zero, result the weighted sum. -/
def idxSpec (d : Dist) : ℚ :=
  match d with
  | .inf => 0
  | .fin x => 1 - min (x / 0.6) 1

/-- Weight triple of the specification's reference algorithm. -/
def weightsSpec (wIdx sIdx : ℚ) : ℚ × ℚ × ℚ :=
  if wIdx = 0 then
    if sIdx = 0 then (0, 0, 1) else (0, 0.6, 0.4)
  else
    if sIdx = 0 then (0.6, 0, 0.4) else (0.4, 0.4, 0.2)

/-- The specification's reference readiness score. -/
def scoreSpec (w s : Dist) (lenKm : ℚ) : ℚ :=
  let wIdx := idxSpec w
  let sIdx := idxSpec s
  let dIdx := min (lenKm / 1.5) 1
  let t := weightsSpec wIdx sIdx
  t.1 * wIdx + t.2.1 * sIdx + t.2.2 * dIdx

/-- Non-negativity of a distance value (`Infinity` counts as non-negative). -/
def Dist.Nonneg : Dist → Prop
  | .inf => True
  | .fin d => 0 ≤ d

theorem toIdx_mem (d : Dist) (h : d.Nonneg) : 0 ≤ toIdx d ∧ toIdx d ≤ 1 := by
  cases d with
  | inf => simp [toIdx]
  | fin x =>
    simp only [toIdx, Dist.Nonneg] at *
    constructor
    · have h1 : min (x / 0.6) 1 ≤ 1 := min_le_right _ _
      linarith
    · have h2 : (0 : ℚ) ≤ min (x / 0.6) 1 := by
        apply le_min
        · positivity
        · norm_num
      linarith

/-- C1: `readinessScore` agrees with the specification's reference
algorithm on every input, `score(∞, ∞, 0) = 0`, and `score(0, 0, l) = 1`
for every `l ≥ 1.5`. -/
theorem readinessScore_matches_reference :
    (∀ (w s : Dist) (lenKm : ℚ), readinessScore w s lenKm = scoreSpec w s lenKm) ∧
    readinessScore .inf .inf 0 = 0 ∧
    (∀ lenKm : ℚ, 1.5 ≤ lenKm → readinessScore (.fin 0) (.fin 0) lenKm = 1) := by
  refine ⟨?_, ?_, ?_⟩
  · intro w s lenKm
    have hidx : ∀ d, toIdx d = idxSpec d := by
      intro d; cases d <;> rfl
    simp only [readinessScore, scoreSpec, weightsSpec, hidx]
    by_cases hw : idxSpec w = 0 <;> by_cases hs : idxSpec s = 0 <;>
      simp [hw, hs]
  · norm_num [readinessScore, toIdx]
  · intro lenKm hl
    have hd : min (lenKm / 1.5) 1 = 1 := by
      apply min_eq_right
      rw [le_div_iff₀ (by norm_num)]
      linarith
    simp only [readinessScore, toIdx, hd]
    norm_num [min_def]

/-- Witness for C1: the bounded conjunct applied at `lenKm = 2`. -/
theorem readinessScore_matches_reference_witness :
    readinessScore (.fin 0) (.fin 0) 2 = 1 :=
  readinessScore_matches_reference.2.2 2 (by norm_num)

/-- C2: for non-negative (or unbounded) distances and non-negative length,
the readiness score lies in the closed interval `[0, 1]`. -/
theorem readinessScore_in_unit_interval (w s : Dist) (lenKm : ℚ)
    (hw : w.Nonneg) (hs : s.Nonneg) (hl : 0 ≤ lenKm) :
    0 ≤ readinessScore w s lenKm ∧ readinessScore w s lenKm ≤ 1 := by
  obtain ⟨hw0, hw1⟩ := toIdx_mem w hw
  obtain ⟨hs0, hs1⟩ := toIdx_mem s hs
  have hq : (0 : ℚ) ≤ lenKm / 1.5 := by positivity
  have hd0 : (0 : ℚ) ≤ min (lenKm / 1.5) 1 := le_min hq (by norm_num)
  have hd1 : min (lenKm / 1.5) 1 ≤ 1 := min_le_right _ _
  have key : ∀ a b c : ℚ, 0 ≤ a → 0 ≤ b → 0 ≤ c → a + b + c = 1 →
      0 ≤ a * toIdx w + b * toIdx s + c * min (lenKm / 1.5) 1 ∧
      a * toIdx w + b * toIdx s + c * min (lenKm / 1.5) 1 ≤ 1 := by
    intro a b c ha hb hc habc
    constructor
    · have := mul_nonneg ha hw0
      have := mul_nonneg hb hs0
      have := mul_nonneg hc hd0
      linarith
    · have := mul_le_mul_of_nonneg_left hw1 ha
      have := mul_le_mul_of_nonneg_left hs1 hb
      have := mul_le_mul_of_nonneg_left hd1 hc
      nlinarith
  simp only [readinessScore]
  split_ifs with h1 h2 h3
  · exact key 0 0 1 (by norm_num) (by norm_num) (by norm_num) (by norm_num)
  · exact key 0 0.6 0.4 (by norm_num) (by norm_num) (by norm_num) (by norm_num)
  · exact key 0.6 0 0.4 (by norm_num) (by norm_num) (by norm_num) (by norm_num)
  · exact key 0.4 0.4 0.2 (by norm_num) (by norm_num) (by norm_num) (by norm_num)

/-- Witness for C2: the bounds hold at `score(0.3, ∞, 0.5)`. -/
theorem readinessScore_in_unit_interval_witness :
    0 ≤ readinessScore (.fin 0.3) .inf 0.5 ∧
      readinessScore (.fin 0.3) .inf 0.5 ≤ 1 :=
  readinessScore_in_unit_interval (.fin 0.3) .inf 0.5
    (by norm_num [Dist.Nonneg]) trivial (by norm_num)

/-! ### Geometry oracle and spatial candidate filter
(gis_analysis.js, `linesNearPolygon`, `sumLengthWithinBufferKm_local`) -/

/-- GeoJSON geometry type tag as read from `f.geometry?.type`. -/
inductive GeomType where
  | lineString
  | multiLineString
  | other
deriving DecidableEq

/-- Abstract geometry oracle over polygons `P`, buffer polygons `B` and
line features `F`, exposing exactly the turf.js primitives the analysis
code composes: `bufferBBox poly r` is
`turf.buffer(turf.bboxPolygon(turf.bbox(poly)), r)`, `buffer` is
`turf.buffer(poly, r)`, `intersects` is `turf.booleanIntersects`,
`lengthKm` is `turf.length(f)` (total length of the whole feature) and
`geomType` is `f.geometry?.type`. -/
structure Geo (P B F : Type) where
  bufferBBox : P → ℚ → B
  buffer : P → ℚ → B
  intersects : B → F → Bool
  lengthKm : F → ℚ
  geomType : F → GeomType

/-- Embedding of `linesNearPolygon(poly, lineFC, radiusKm)` from
gis_analysis.js lines 149-161: keep the features whose geometry type is
`LineString` and which intersect the buffered bounding box. -/
def linesNearPolygon {P B F : Type} (G : Geo P B F) (poly : P)
    (lineFC : List F) (radiusKm : ℚ) : List F :=
  if lineFC.isEmpty then []
  else
    let buf := G.bufferBBox poly radiusKm
    lineFC.filter (fun f => decide (G.geomType f = .lineString) && G.intersects buf f)

/-- Embedding of `sumLengthWithinBufferKm_local(poly, waterFC, sewerFC,
bufferKm)` from gis_analysis.js lines 179-192: buffer the polygon, then
add the FULL length of every `LineString` feature of the two collections
that intersects the buffer. -/
def sumLengthWithinBufferKm_local {P B F : Type} (G : Geo P B F) (poly : P)
    (waterFC sewerFC : List F) (bufferKm : ℚ) : ℚ :=
  let buf := G.buffer poly bufferKm
  let add := fun (total : ℚ) (fc : List F) =>
    fc.foldl (fun t f =>
      if G.geomType f = .lineString ∧ G.intersects buf f = true
      then t + G.lengthKm f else t) total
  add (add 0 waterFC) sewerFC

theorem mem_linesNearPolygon {P B F : Type} (G : Geo P B F) (poly : P)
    (fc : List F) (r : ℚ) (f : F) :
    f ∈ linesNearPolygon G poly fc r ↔
      f ∈ fc ∧ G.geomType f = .lineString ∧
        G.intersects (G.bufferBBox poly r) f = true := by
  unfold linesNearPolygon
  by_cases hfc : fc.isEmpty
  · simp [hfc, List.isEmpty_iff.mp hfc]
  · simp only [hfc, Bool.false_eq_true, if_false, List.mem_filter,
      Bool.and_eq_true, decide_eq_true_eq]

/-- C4 counterexample scenario: a single feature whose geometry is a
`MultiLineString` and which intersects every buffer. -/
def mlGeo : Geo Unit Unit Unit :=
  ⟨fun _ _ => (), fun _ _ => (), fun _ _ => true, fun _ => 1,
   fun _ => .multiLineString⟩

/-- C4 is false as stated: the multi-line-string feature `()` intersects
the buffered bounding box, yet `linesNearPolygon` excludes it (the filter
keeps only `LineString` geometries). -/
theorem linesNearPolygon_drops_multiLineString :
    mlGeo.geomType () = .multiLineString ∧
    mlGeo.intersects (mlGeo.bufferBBox () 1) () = true ∧
    linesNearPolygon mlGeo () [()] 1 = [] := by
  refine ⟨rfl, rfl, ?_⟩
  rfl

/-- C4 (amended): `filterNear` contains every `LineString` feature whose
geometry intersects the buffered bounding box of the region, and every
feature it returns is a `LineString` — multi-line-string features are
never included. -/
theorem linesNearPolygon_complete_for_lineStrings {P B F : Type}
    (G : Geo P B F) (poly : P) (fc : List F) (r : ℚ) :
    (∀ f ∈ fc, G.geomType f = .lineString →
      G.intersects (G.bufferBBox poly r) f = true →
      f ∈ linesNearPolygon G poly fc r) ∧
    (∀ f ∈ linesNearPolygon G poly fc r, G.geomType f = .lineString) := by
  constructor
  · intro f hf hline hint
    exact (mem_linesNearPolygon G poly fc r f).mpr ⟨hf, hline, hint⟩
  · intro f hf
    exact ((mem_linesNearPolygon G poly fc r f).mp hf).2.1

/-- C4 amendment scenario: a single intersecting `LineString` feature. -/
def lsGeo : Geo Unit Unit Unit :=
  ⟨fun _ _ => (), fun _ _ => (), fun _ _ => true, fun _ => 1,
   fun _ => .lineString⟩

/-- Witness for the amended C4: the intersecting line-string feature `()`
is returned by the filter. -/
theorem linesNearPolygon_complete_for_lineStrings_witness :
    () ∈ linesNearPolygon lsGeo () [()] 1 :=
  (linesNearPolygon_complete_for_lineStrings lsGeo () [()] 1).1 ()
    (List.mem_singleton.mpr rfl) rfl rfl

/-- C5: under the buffer contract (a larger radius gives a footprint whose
intersection test accepts at least as much), the candidate set grows
monotonically with the radius. -/
theorem linesNearPolygon_monotone {P B F : Type} (G : Geo P B F) (poly : P)
    (fc : List F) (r1 r2 : ℚ) (_hr : r1 ≤ r2)
    (hmono : ∀ f, G.intersects (G.bufferBBox poly r1) f = true →
      G.intersects (G.bufferBBox poly r2) f = true) :
    ∀ f ∈ linesNearPolygon G poly fc r1, f ∈ linesNearPolygon G poly fc r2 := by
  intro f hf
  obtain ⟨hfc, hline, hint⟩ := (mem_linesNearPolygon G poly fc r1 f).mp hf
  exact (mem_linesNearPolygon G poly fc r2 f).mpr ⟨hfc, hline, hmono f hint⟩

/-- Witness for C5: with radii 1 ≤ 2 and an always-true intersection
oracle, the feature kept at radius 1 is kept at radius 2. -/
theorem linesNearPolygon_monotone_witness :
    () ∈ linesNearPolygon lsGeo () [()] 2 :=
  linesNearPolygon_monotone lsGeo () [()] 1 2 (by norm_num)
    (fun _ h => h) () (by decide)

/-- C3 is false as stated: in the end-to-end example scenario (one
intersecting `LineString` of full length 1 km, sewer collection empty),
the local measurement returns the full 1 km — not the 0.8 km portion
inside the 250 m buffer — and the resulting readiness is 2/3, not 46/75
(= 0.6·(1−0.2/0.6) + 0.4·(0.8/1.5) ≈ 0.613). -/
theorem sumLength_counts_full_line_not_clipped :
    sumLengthWithinBufferKm_local lsGeo () [()] [] 0.25 = 1 ∧
    (1 : ℚ) ≠ 0.8 ∧
    readinessScore (.fin 0.2) .inf
        (sumLengthWithinBufferKm_local lsGeo () [()] [] 0.25) = 2 / 3 ∧
    (2 / 3 : ℚ) ≠ 46 / 75 := by
  have h1 : sumLengthWithinBufferKm_local lsGeo () [()] [] 0.25 = 1 := by
    simp [sumLengthWithinBufferKm_local, lsGeo]
  refine ⟨h1, by norm_num, ?_, by norm_num⟩
  rw [h1]
  norm_num [readinessScore, toIdx, min_def]

/-- C3 (amended): for the end-to-end example input, the local pipe-length
measurement with `bufferKm = 0.25` returns the FULL length of the
intersecting line (1 km), not the 0.8 km portion inside the buffer, and
the resulting readiness equals 0.6·(1−0.2/0.6) + 0.4·(1/1.5) = 2/3 ≈ 0.667. -/
theorem sumLength_example_full_length {P B F : Type} (G : Geo P B F)
    (poly : P) (f : F)
    (hline : G.geomType f = .lineString)
    (hint : G.intersects (G.buffer poly 0.25) f = true)
    (hlen : G.lengthKm f = 1) :
    sumLengthWithinBufferKm_local G poly [f] [] 0.25 = 1 ∧
    readinessScore (.fin 0.2) .inf
        (sumLengthWithinBufferKm_local G poly [f] [] 0.25) = 2 / 3 := by
  have h1 : sumLengthWithinBufferKm_local G poly [f] [] 0.25 = 1 := by
    simp [sumLengthWithinBufferKm_local, hline, hint, hlen]
  refine ⟨h1, ?_⟩
  rw [h1]
  norm_num [readinessScore, toIdx, min_def]

/-- Witness for the amended C3, at the concrete one-line oracle. -/
theorem sumLength_example_full_length_witness :
    sumLengthWithinBufferKm_local lsGeo () [()] [] 0.25 = 1 ∧
    readinessScore (.fin 0.2) .inf
        (sumLengthWithinBufferKm_local lsGeo () [()] [] 0.25) = 2 / 3 :=
  sumLength_example_full_length lsGeo () () rfl rfl rfl

/-! ### Paged retrieval coordinator (app.js, `queryAllFeatures`) -/

/-- Outcome of the paged retrieval loop: the accumulated features, a
retrieval error (a rejected page request propagates and discards all
accumulated features), or fuel exhaustion (the `while (true)` loop did
not terminate within the modelled iteration bound). -/
inductive FetchOut (F : Type) where
  | ok (features : List F)
  | err
  | outOfFuel
deriving DecidableEq

/-- Embedding of the `while (true)` loop of `queryAllFeatures` (app.js
lines 224-250). `fetch offset` models one page request
(`q.offset(offset); q.limit(pageSize); q.run(...)`); `.error` models a
rejected request. Each batch is appended to the accumulator; the loop
stops successfully the first time a batch is strictly shorter than
`pageSize`, and otherwise advances the offset by `pageSize`. `fuel`
bounds the number of iterations modelled. -/
def queryAllLoop {F : Type} (fetch : ℕ → Except Unit (List F))
    (pageSize : ℕ) : ℕ → ℕ → List F → FetchOut F
  | 0, _, _ => .outOfFuel
  | fuel + 1, offset, all =>
    match fetch offset with
    | .error _ => .err
    | .ok batch =>
      if batch.length < pageSize then .ok (all ++ batch)
      else queryAllLoop fetch pageSize fuel (offset + pageSize) (all ++ batch)

/-- `queryAllFeatures`: run the paged loop from offset 0 with an empty
accumulator. -/
def queryAllFeatures {F : Type} (fetch : ℕ → Except Unit (List F))
    (pageSize fuel : ℕ) : FetchOut F :=
  queryAllLoop fetch pageSize fuel 0 []

theorem queryAllLoop_join {F : Type} (pageSize : ℕ) :
    ∀ (pages : List (List F)) (fetch : ℕ → Except Unit (List F))
      (offset : ℕ) (acc : List F) (hne : pages ≠ []),
      (∀ i (h : i < pages.length),
        fetch (offset + i * pageSize) = .ok (pages.get ⟨i, h⟩)) →
      (∀ i (h : i < pages.length - 1),
        (pages.get ⟨i, by omega⟩).length = pageSize) →
      (pages.getLast hne).length < pageSize →
      queryAllLoop fetch pageSize pages.length offset acc =
        .ok (acc ++ pages.flatten) := by
  intro pages
  induction pages with
  | nil => intro fetch offset acc hne; exact absurd rfl hne
  | cons p ps ih =>
    intro fetch offset acc hne hfetch hfull hlast
    have hp : fetch offset = .ok p := by
      have h0 := hfetch 0 (by simp)
      simpa using h0
    cases ps with
    | nil =>
      have hlen : p.length < pageSize := by simpa using hlast
      simp [queryAllLoop, hp, hlen]
    | cons q ps₂ =>
      have hplen : p.length = pageSize := by
        have h0 := hfull 0 (by simp)
        simpa using h0
      have hrec := ih fetch (offset + pageSize) (acc ++ p) (by simp)
        (by
          intro i h
          have hi := hfetch (i + 1) (by simpa using Nat.succ_lt_succ h)
          have harith : offset + (i + 1) * pageSize =
              offset + pageSize + i * pageSize := by ring
          rw [harith] at hi
          simpa using hi)
        (by
          intro i h
          have hlt : i + 1 < (p :: q :: ps₂).length - 1 := by
            simp only [List.length_cons] at h ⊢
            omega
          have hi := hfull (i + 1) hlt
          simpa using hi)
        (by
          have hgl : (q :: ps₂).getLast (by simp) =
              (p :: q :: ps₂).getLast hne := (List.getLast_cons _).symm
          rw [hgl]
          exact hlast)
      simp only [List.length_cons] at hrec ⊢
      generalize hg : ps₂.length + 1 = n at hrec ⊢
      simp [queryAllLoop, hp, hplen, hrec, List.append_assoc]

/-- C6: when every page before the last is exactly `pageSize` long and the
last page is strictly shorter, the paged retrieval terminates within
`pages.length` rounds and returns exactly the concatenation of all pages
in request order, the offset advancing by `pageSize` each round; and a
source whose first page is empty yields a single empty collection. -/
theorem queryAllFeatures_concatenates {F : Type}
    (fetch : ℕ → Except Unit (List F)) (pageSize : ℕ)
    (pages : List (List F)) (hne : pages ≠ [])
    (hfetch : ∀ i (h : i < pages.length),
      fetch (i * pageSize) = .ok (pages.get ⟨i, h⟩))
    (hfull : ∀ i (h : i < pages.length - 1),
      (pages.get ⟨i, by omega⟩).length = pageSize)
    (hlast : (pages.getLast hne).length < pageSize) :
    queryAllFeatures fetch pageSize pages.length = .ok pages.flatten ∧
    (∀ g : ℕ → Except Unit (List F), g 0 = .ok [] → 0 < pageSize →
      ∀ fuel, 0 < fuel → queryAllFeatures g pageSize fuel = .ok ([] : List F)) := by
  constructor
  · have h := queryAllLoop_join pageSize pages fetch 0 [] hne
      (by intro i hi; simpa using hfetch i hi) hfull hlast
    simpa [queryAllFeatures] using h
  · intro g hg hps fuel hfuel
    cases fuel with
    | zero => omega
    | succ n => simp [queryAllFeatures, queryAllLoop, hg, hps]

/-- A concrete honest page source for the C6 witness: page 0 is `[1, 2]`
(full at page size 2), page 1 is `[3]` (short), later offsets error. -/
def pagesFetch : ℕ → Except Unit (List ℕ) := fun offset =>
  if offset = 0 then .ok [1, 2]
  else if offset = 2 then .ok [3]
  else .error ()

/-- Witness for C6: the two-page source concatenates to `[1, 2, 3]`. -/
theorem queryAllFeatures_concatenates_witness :
    queryAllFeatures pagesFetch 2 2 = .ok [1, 2, 3] :=
  (queryAllFeatures_concatenates pagesFetch 2 [[1, 2], [3]] (by simp)
    (by
      intro i h
      simp only [List.length_cons, List.length_nil] at h
      interval_cases i <;> rfl)
    (by
      intro i h
      simp only [List.length_cons, List.length_nil] at h
      interval_cases i
      rfl)
    (by decide)).1

theorem queryAllLoop_err {F : Type} (pageSize : ℕ) :
    ∀ (k : ℕ) (fetch : ℕ → Except Unit (List F)) (offset : ℕ)
      (acc : List F) (fuel : ℕ),
      (∀ i, i < k → ∃ batch, fetch (offset + i * pageSize) = .ok batch ∧
        batch.length = pageSize) →
      fetch (offset + k * pageSize) = .error () →
      k < fuel →
      queryAllLoop fetch pageSize fuel offset acc = .err := by
  intro k
  induction k with
  | zero =>
    intro fetch offset acc fuel _hok hfail hfuel
    cases fuel with
    | zero => omega
    | succ n =>
      simp only [Nat.zero_mul, Nat.add_zero] at hfail
      simp [queryAllLoop, hfail]
  | succ k ih =>
    intro fetch offset acc fuel hok hfail hfuel
    cases fuel with
    | zero => omega
    | succ n =>
      obtain ⟨batch, hb, hblen⟩ := hok 0 (Nat.succ_pos k)
      simp only [Nat.zero_mul, Nat.add_zero] at hb
      have hrec := ih fetch (offset + pageSize) (acc ++ batch) n
        (by
          intro i hi
          obtain ⟨b, hb2, hb2len⟩ := hok (i + 1) (Nat.succ_lt_succ hi)
          refine ⟨b, ?_, hb2len⟩
          have harith : offset + (i + 1) * pageSize =
              offset + pageSize + i * pageSize := by ring
          rw [harith] at hb2
          exact hb2)
        (by
          have harith : offset + (k + 1) * pageSize =
              offset + pageSize + k * pageSize := by ring
          rw [harith] at hfail
          exact hfail)
        (by omega)
      simp [queryAllLoop, hb, hblen, hrec]

/-- C7: if every page before index `k` succeeds with a full batch and the
page request at index `k` fails, the whole retrieval fails — no partial
feature collection accumulated from the earlier successful pages is
returned to the caller. -/
theorem queryAllFeatures_fails_whole {F : Type}
    (fetch : ℕ → Except Unit (List F)) (pageSize k fuel : ℕ)
    (hok : ∀ i, i < k → ∃ batch, fetch (i * pageSize) = .ok batch ∧
      batch.length = pageSize)
    (hfail : fetch (k * pageSize) = .error ())
    (hfuel : k < fuel) :
    queryAllFeatures fetch pageSize fuel = .err := by
  have h := queryAllLoop_err pageSize k fetch 0 [] fuel
    (by intro i hi; simpa using hok i hi) (by simpa using hfail) hfuel
  simpa [queryAllFeatures] using h

/-- A page source whose first page is full and whose second page request
fails, for the C7 witness. -/
def failFetch : ℕ → Except Unit (List ℕ) := fun offset =>
  if offset = 0 then .ok [1, 2] else .error ()

/-- Witness for C7: with page size 2, the failure on the second page makes
the whole retrieval fail. -/
theorem queryAllFeatures_fails_whole_witness :
    queryAllFeatures failFetch 2 2 = .err :=
  queryAllFeatures_fails_whole failFetch 2 1 2
    (by intro i hi; interval_cases i; exact ⟨[1, 2], rfl, rfl⟩)
    rfl (by norm_num)

/-! ### Filter input validation (app.js, `applyDiameterFilter`, `buildWhere`) -/

/-- Result of a filter interaction: either the input is rejected
synchronously (`alert` and early return, no request issued) or a where
clause is handed to `setWhere`, which issues a query to the data source. -/
inductive FilterAction where
  | rejected
  | issued (clause : String)
deriving DecidableEq

/-- Embedding of `applyDiameterFilter` (app.js lines 188-199). The text
box value after JavaScript `Number(...)` coercion is modelled as `none`
when the result is not finite (`NaN` or an infinity) and `some v`
otherwise. A non-finite or negative threshold is rejected with an alert
before `setWhere` is called; otherwise the clause
`nominaldiameter >= v` is applied. -/
def applyDiameterFilter (v : Option ℚ) : FilterAction :=
  match v with
  | none => .rejected
  | some q =>
    if q < 0 then .rejected
    else .issued ("nominaldiameter >= " ++ toString q)

/-- The single-quote character of the SQL-like predicate grammar. -/
def sqChar : String := String.singleton (Char.ofNat 39)

/-- Embedding of `buildWhere(field, op, value, ftype)` (app.js lines
369-389). `parseDate` models the host `Date.parse`, returning `none`
when the value is unparseable (`NaN`). A missing or empty value yields
`field op NULL`; string values are quoted with doubled embedded quotes
and LIKE values wrapped in percent wildcards; date values become epoch
numbers — and an unparseable date value silently degrades to the clause
`field op NULL` instead of being rejected. -/
def buildWhere (parseDate : String → Option ℤ)
    (field op : String) (value : Option String) (ftype : String) : String :=
  if field = "" ∨ op = "" then "1=1"
  else
    match value with
    | none => field ++ " " ++ op ++ " NULL"
    | some v =>
      if v = "" then field ++ " " ++ op ++ " NULL"
      else if ftype = "esriFieldTypeString" then
        let escaped := v.replace sqChar (sqChar ++ sqChar)
        if op = "LIKE" then
          field ++ " " ++ op ++ " " ++ sqChar ++ "%" ++ escaped ++ "%" ++ sqChar
        else field ++ " " ++ op ++ " " ++ sqChar ++ escaped ++ sqChar
      else if ftype = "esriFieldTypeDate" then
        match parseDate v with
        | some t => field ++ " " ++ op ++ " " ++ toString t
        | none => field ++ " " ++ op ++ " NULL"
      else field ++ " " ++ op ++ " " ++ v

/-- Embedding of the attribute-filter `apply()` flow (app.js lines
466-481): the clause built by `buildWhere` is always handed to
`setWhere` — the flow contains no validation step that could reject the
entered value. -/
def attributeApply (parseDate : String → Option ℤ)
    (field op value ftype : String) : FilterAction :=
  .issued (buildWhere parseDate field op (some value) ftype)

/-- C8 is false as stated: with an unparseable date value the attribute
filter does not reject the input. `buildWhere` silently substitutes
`NULL` for the malformed value and a query carrying the clause
`installdate = NULL` is issued to the data source. -/
theorem attributeApply_issues_on_bad_date :
    attributeApply (fun _ => none) "installdate" "=" "notadate"
        "esriFieldTypeDate" = .issued "installdate = NULL" ∧
    attributeApply (fun _ => none) "installdate" "=" "notadate"
        "esriFieldTypeDate" ≠ .rejected := by
  constructor
  · rfl
  · intro h
    exact FilterAction.noConfusion h

/-- C8 (amended): a non-finite or negative diameter threshold is rejected
synchronously before any query is issued, and a finite non-negative one
issues the diameter clause; but an unparseable date value is NOT
rejected — the attribute filter still issues a query whose clause
replaces the malformed value with `NULL`. -/
theorem filter_validation_behaviour :
    applyDiameterFilter none = .rejected ∧
    (∀ q : ℚ, q < 0 → applyDiameterFilter (some q) = .rejected) ∧
    (∀ q : ℚ, 0 ≤ q → applyDiameterFilter (some q) =
      .issued ("nominaldiameter >= " ++ toString q)) ∧
    (∀ (parseDate : String → Option ℤ) (field op v : String),
      field ≠ "" → op ≠ "" → v ≠ "" → parseDate v = none →
      attributeApply parseDate field op v "esriFieldTypeDate" =
        .issued (field ++ " " ++ op ++ " NULL")) := by
  refine ⟨rfl, ?_, ?_, ?_⟩
  · intro q hq
    simp [applyDiameterFilter, hq]
  · intro q hq
    simp [applyDiameterFilter, not_lt.mpr hq]
  · intro parseDate field op v hf ho hv hpd
    simp [attributeApply, buildWhere, hf, ho, hv, hpd]

/-- Witness for the amended C8: the negative threshold `-1` is rejected. -/
theorem filter_validation_behaviour_witness :
    applyDiameterFilter (some (-1)) = .rejected :=
  filter_validation_behaviour.2.1 (-1) (by norm_num)

/-! ### Debounced recompute scheduler (app.js, `scheduleAnalytics`) -/

/-- The quiet interval of `scheduleAnalytics`, in milliseconds. -/
def quietMs : ℕ := 350

/-- Timeline semantics of `scheduleAnalytics` (app.js lines 553-556) over
a chronological list of trigger-event times: each trigger cancels any
pending scheduled run (`clearTimeout(analyticsTimer)`) and schedules a
fresh run one quiet interval later (`setTimeout(computeAnalytics, 350)`);
a pending run fires when no further trigger arrives strictly before its
fire time. The result is the list of times at which `computeAnalytics`
actually runs. -/
def debounceRuns (quiet : ℕ) : List ℕ → List ℕ
  | [] => []
  | [t] => [t + quiet]
  | t1 :: t2 :: rest =>
    if t2 < t1 + quiet then debounceRuns quiet (t2 :: rest)
    else (t1 + quiet) :: debounceRuns quiet (t2 :: rest)

/-- C9: for every burst of `N ≥ 1` trigger events in which each
consecutive pair is separated by strictly less than the quiet interval,
exactly one aggregation run occurs, and it fires one quiet interval after
the last trigger event. -/
theorem debounce_coalesces_burst (ts : List ℕ) (hne : ts ≠ [])
    (hchron : ts.Chain' (· ≤ ·))
    (hburst : ts.Chain' (fun a b => b < a + quietMs)) :
    debounceRuns quietMs ts = [ts.getLast hne + quietMs] := by
  induction ts with
  | nil => exact absurd rfl hne
  | cons t rest ih =>
    cases rest with
    | nil => rfl
    | cons u rest₂ =>
      have h1 : u < t + quietMs := (List.chain'_cons.mp hburst).1
      have hrec := ih (by simp) (List.chain'_cons.mp hchron).2
        (List.chain'_cons.mp hburst).2
      simp only [debounceRuns, if_pos h1, hrec]
      simp [List.getLast_cons]

/-- Witness for C9: three triggers at 0, 100 and 200 ms (gaps under
350 ms) produce exactly one run, at 550 ms. -/
theorem debounce_coalesces_burst_witness :
    debounceRuns quietMs [0, 100, 200] = [550] := by
  have h := debounce_coalesces_burst [0, 100, 200] (by simp)
    (by norm_num [List.chain'_cons, List.chain'_singleton])
    (by norm_num [List.chain'_cons, List.chain'_singleton, quietMs])
  simpa [quietMs] using h

/-! ### Viewport length aggregator (app.js, `lengthInViewKm`) -/

/-- Oracle for `turf.length(turf.bboxClip(part, bbox), {units:'kilometers'})`
over abstract coordinate arrays `Part` and bounding boxes `B`: `none`
models the computation throwing on an invalid part. -/
structure ClipGeo (Part B : Type) where
  clipLen : Part → B → Option ℚ

/-- A GeoJSON geometry as inspected by `lengthInViewKm`. -/
inductive JsGeom (Part : Type) where
  | lineString (coords : Part)
  | multiLineString (coords : List Part)
  | unsupported

/-- A feature as consumed by `lengthInViewKm`: an optional geometry and
the value of `Number(properties?.nominaldiameter)` when it is finite. -/
structure JsFeature (Part : Type) where
  geometry : Option (JsGeom Part)
  nominaldiameter : Option ℚ

/-- Mutable state of one `lengthInViewKm` pass: the running `totalKm` and
the `byDiameterMap` bin map, modelled as a total function with default 0. -/
structure AggState where
  totalKm : ℚ
  bins : ℚ → ℚ

/-- Embedding of the inner `addLen(coords)` closure (app.js lines
261-271) on one coordinate part: `none` when the clipping/length
computation throws (the exception propagates to the per-feature catch);
otherwise the clipped length is added to the total and, when a bin map
was passed and the feature carries a finite diameter, to that diameter's
bin. -/
def addLen {Part B : Type} (G : ClipGeo Part B) (bbox : B) (useBins : Bool)
    (dia : Option ℚ) (st : AggState) (coords : Part) : Option AggState :=
  match G.clipLen coords bbox with
  | none => none
  | some km =>
    some ⟨st.totalKm + km,
      if useBins then
        match dia with
        | some d => fun x => if x = d then st.bins d + km else st.bins x
        | none => st.bins
      else st.bins⟩

/-- Run `addLen` over the coordinate parts of one feature, stopping at
the first part whose computation throws: the `catch` of the feature loop
discards the exception and keeps the state accumulated so far. -/
def runParts {Part B : Type} (G : ClipGeo Part B) (bbox : B) (useBins : Bool)
    (dia : Option ℚ) : AggState → List Part → AggState
  | st, [] => st
  | st, c :: cs =>
    match addLen G bbox useBins dia st c with
    | none => st
    | some st₂ => runParts G bbox useBins dia st₂ cs

/-- Per-feature step of `lengthInViewKm` (app.js lines 258-277): a null
feature, a missing geometry or an unsupported geometry type contributes
nothing; a `LineString` runs `addLen` on its single coordinate array; a
`MultiLineString` runs `addLen` on each component part in order. -/
def processFeature {Part B : Type} (G : ClipGeo Part B) (bbox : B)
    (useBins : Bool) (st : AggState) : Option (JsFeature Part) → AggState
  | none => st
  | some f =>
    match f.geometry with
    | none => st
    | some (.lineString c) => runParts G bbox useBins f.nominaldiameter st [c]
    | some (.multiLineString cs) => runParts G bbox useBins f.nominaldiameter st cs
    | some .unsupported => st

/-- Embedding of `lengthInViewKm(featureCollection, bbox, byDiameterMap)`
(app.js lines 253-280): fold the per-feature step over the collection,
starting from a zero total and an empty bin map. -/
def lengthInViewKm {Part B : Type} (G : ClipGeo Part B) (bbox : B)
    (fc : List (Option (JsFeature Part))) (useBins : Bool) : AggState :=
  fc.foldl (processFeature G bbox useBins) ⟨0, fun _ => 0⟩

/-- Clipped length of the longest prefix of parts that precede the first
throwing part. -/
def prefixLen {Part B : Type} (G : ClipGeo Part B) (bbox : B)
    (cs : List Part) : ℚ :=
  ((cs.takeWhile (fun c => (G.clipLen c bbox).isSome)).map
    (fun c => (G.clipLen c bbox).getD 0)).sum

theorem foldl_skip {α β : Type} (f : β → α → β) (i : β) (xs ys : List α)
    (b : α) (hb : ∀ st, f st b = st) :
    List.foldl f i (xs ++ b :: ys) = List.foldl f i (xs ++ ys) := by
  simp [List.foldl_append, List.foldl_cons, hb]

theorem addLen_eq_some {Part B : Type} (G : ClipGeo Part B) (bbox : B)
    (useBins : Bool) (dia : Option ℚ) (st : AggState) (c : Part) (km : ℚ)
    (hc : G.clipLen c bbox = some km) :
    ∃ st₂, addLen G bbox useBins dia st c = some st₂ ∧
      st₂.totalKm = st.totalKm + km ∧
      ∀ x, st₂.bins x
        = st.bins x + (if useBins = true ∧ dia = some x then km else 0) := by
  unfold addLen
  rw [hc]
  refine ⟨_, rfl, rfl, ?_⟩
  intro x
  cases useBins with
  | false => simp
  | true =>
    cases dia with
    | none => simp
    | some d =>
      by_cases hx : x = d
      · subst hx; simp
      · simp [hx, Ne.symm hx]

theorem runParts_characterization {Part B : Type} (G : ClipGeo Part B)
    (bbox : B) (useBins : Bool) (dia : Option ℚ) :
    ∀ (cs : List Part) (st : AggState),
      (runParts G bbox useBins dia st cs).totalKm
        = st.totalKm + prefixLen G bbox cs ∧
      ∀ x, (runParts G bbox useBins dia st cs).bins x
        = st.bins x +
            (if useBins = true ∧ dia = some x then prefixLen G bbox cs else 0) := by
  intro cs
  induction cs with
  | nil => intro st; simp [runParts, prefixLen]
  | cons c cs ih =>
    intro st
    cases hc : G.clipLen c bbox with
    | none =>
      have hpre : prefixLen G bbox (c :: cs) = 0 := by
        simp [prefixLen, List.takeWhile_cons, hc]
      constructor
      · simp [runParts, addLen, hc, hpre]
      · intro x
        simp [runParts, addLen, hc, hpre]
    | some km =>
      have hpre : prefixLen G bbox (c :: cs) = km + prefixLen G bbox cs := by
        simp [prefixLen, List.takeWhile_cons, hc]
      obtain ⟨st₂, ha, ht₂, hb₂⟩ := addLen_eq_some G bbox useBins dia st c km hc
      have hstep : runParts G bbox useBins dia st (c :: cs)
          = runParts G bbox useBins dia st₂ cs := by
        simp [runParts, ha]
      obtain ⟨iht, ihb⟩ := ih st₂
      constructor
      · rw [hstep, iht, ht₂, hpre]; ring
      · intro x
        rw [hstep, ihb x, hb₂ x, hpre]
        by_cases hP : useBins = true ∧ dia = some x
        · rw [if_pos hP, if_pos hP, if_pos hP]; ring
        · rw [if_neg hP, if_neg hP, if_neg hP]; ring

/-- C10: the viewport length aggregation is total and never aborts the
pass: a null feature, a feature without geometry and a feature with an
unsupported geometry type are skipped without affecting the rest of the
collection; a `LineString` whose clipping/length computation throws
contributes nothing but does not abort; and a feature's parts contribute
exactly the clipped lengths of the component parts preceding the first
failing one, to both the running total and the diameter bin map. -/
theorem lengthInViewKm_safety {Part B : Type} (G : ClipGeo Part B)
    (bbox : B) (useBins : Bool) :
    (∀ xs ys, lengthInViewKm G bbox (xs ++ none :: ys) useBins
      = lengthInViewKm G bbox (xs ++ ys) useBins) ∧
    (∀ xs ys dia, lengthInViewKm G bbox (xs ++ some ⟨none, dia⟩ :: ys) useBins
      = lengthInViewKm G bbox (xs ++ ys) useBins) ∧
    (∀ xs ys dia, lengthInViewKm G bbox
        (xs ++ some ⟨some .unsupported, dia⟩ :: ys) useBins
      = lengthInViewKm G bbox (xs ++ ys) useBins) ∧
    (∀ xs ys dia c, G.clipLen c bbox = none →
      lengthInViewKm G bbox
          (xs ++ some ⟨some (.lineString c), dia⟩ :: ys) useBins
        = lengthInViewKm G bbox (xs ++ ys) useBins) ∧
    (∀ (st : AggState) (dia : Option ℚ) (cs : List Part),
      (runParts G bbox useBins dia st cs).totalKm
        = st.totalKm + prefixLen G bbox cs ∧
      ∀ x, (runParts G bbox useBins dia st cs).bins x
        = st.bins x +
            (if useBins = true ∧ dia = some x then prefixLen G bbox cs else 0)) := by
  refine ⟨?_, ?_, ?_, ?_, ?_⟩
  · intro xs ys
    exact foldl_skip _ _ xs ys none (fun st => rfl)
  · intro xs ys dia
    exact foldl_skip _ _ xs ys _ (fun st => rfl)
  · intro xs ys dia
    exact foldl_skip _ _ xs ys _ (fun st => rfl)
  · intro xs ys dia c hclip
    refine foldl_skip _ _ xs ys _ (fun st => ?_)
    simp [processFeature, runParts, addLen, hclip]
  · intro st dia cs
    exact runParts_characterization G bbox useBins dia cs st

/-- A clip oracle whose computation always throws, for the C10 witness. -/
def failClip : ClipGeo Unit Unit := ⟨fun _ _ => none⟩

/-- Witness for C10: a line-string feature whose clipping throws leaves
the aggregation state unchanged. -/
theorem lengthInViewKm_safety_witness :
    lengthInViewKm failClip () ([] ++ some ⟨some (.lineString ()), none⟩ :: []) false
      = lengthInViewKm failClip () ([] ++ []) false :=
  (lengthInViewKm_safety failClip () false).2.2.2.1 [] [] none () rfl

end Portfolio
